import Mathlib

/-!
Verification of `src/extern/dwcas.c`: a double-word (128-bit) atomic
compare-and-exchange primitive exposed across a foreign-function boundary.

The C file defines:
  - `struct dwcas_uint128_t { uint64_t first, second; }`
  - `static memory_order mem_order_from_uint8_t(uint8_t order)` — the
    ordering translator (switch on 0,1,2,3 with a seq_cst default)
  - `bool dwcas_compare_exchange_128(volatile struct dwcas_uint128_t* dst,
      uint64_t* old, const uint64_t* new, uint8_t success, uint8_t failure)`
    — a direct call to C11 `atomic_compare_exchange_strong` with the two
    translated orderings.

Shallow embedding: pointers become explicit values threaded through a
state-passing result record.  `atomic_compare_exchange_strong` follows the
C11 semantics of the strong form: it compares the object representation of
`*dst` with `*old`; if equal it stores `*new` into `*dst` (with the success
ordering) and returns true; otherwise it stores the current `*dst` into
`*old` (the load carrying the failure ordering) and returns false.  The
record also carries which memory ordering the atomic access was performed
with, so that the routing of the translated orderings is itself provable.
Machine integers carry no arithmetic here — the operation only compares and
copies bit patterns — so `uint64_t` words are modelled as `Nat` values
(ranging over [0, 2^64)); equality of two `dwcas_uint128_t` values is
field-wise equality, matching the padding-free two-word layout.
-/

/-- The five C11 memory orderings reachable from `mem_order_from_uint8_t`
(`memory_order_consume` is never produced by the translator). -/
inductive memory_order where
  | memory_order_relaxed
  | memory_order_acquire
  | memory_order_release
  | memory_order_acq_rel
  | memory_order_seq_cst
  deriving DecidableEq, Repr

open memory_order

/-- `struct dwcas_uint128_t { uint64_t first, second; }`: a 128-bit value as
two 64-bit words (each field ranges over [0, 2^64); no arithmetic is ever
performed on the words, only comparison and copying). -/
structure dwcas_uint128_t where
  first : Nat
  second : Nat
  deriving DecidableEq, Repr

/-- `static memory_order mem_order_from_uint8_t(uint8_t order)`: the ordering
translator.  The argument models a `uint8_t`, i.e. values 0–255. -/
def mem_order_from_uint8_t (order : Nat) : memory_order :=
  match order with
  | 0 => memory_order_relaxed
  | 1 => memory_order_acquire
  | 2 => memory_order_release
  | 3 => memory_order_acq_rel
  | _ => memory_order_seq_cst

/-- Result of one compare-and-exchange call: the boolean return value, the
final contents of the destination cell `*dst`, the final contents of the
expected buffer `*old`, and the memory ordering the atomic access was
performed with (success ordering for the read-modify-write on the success
path, failure ordering for the load on the failure path). -/
structure CASResult where
  ret : Bool
  dst : dwcas_uint128_t
  old : dwcas_uint128_t
  order_applied : memory_order
  deriving DecidableEq, Repr

/-- C11 `atomic_compare_exchange_strong(dst, old, new, succ, fail)` on a
`dwcas_uint128_t` object: compares `*dst` with `*old`; if equal, stores
`*new` into `*dst` (with ordering `succ`) and returns true, leaving `*old`
untouched; if not equal, stores the current `*dst` into `*old` (the load
carrying ordering `fail`) and returns false, leaving `*dst` untouched.
The strong form never fails spuriously. -/
def atomic_compare_exchange_strong
    (dst old new : dwcas_uint128_t) (succ fail : memory_order) : CASResult :=
  if dst = old then
    { ret := true, dst := new, old := old, order_applied := succ }
  else
    { ret := false, dst := dst, old := dst, order_applied := fail }

/-- `bool dwcas_compare_exchange_128(dst, old, new, success, failure)`:
forwards to `atomic_compare_exchange_strong` with the two 8-bit ordering
codes translated by `mem_order_from_uint8_t`. -/
def dwcas_compare_exchange_128
    (dst old new : dwcas_uint128_t) (success failure : Nat) : CASResult :=
  atomic_compare_exchange_strong dst old new
    (mem_order_from_uint8_t success)
    (mem_order_from_uint8_t failure)

/-- The memory visible to one call through its pointer arguments, plus an
opaque remainder standing for every other byte of process state: the
MemoryLocation `*dst`, the expected buffer `*old`, the read-only desired
buffer `*new`, and `rest`. -/
structure MachineState where
  loc : dwcas_uint128_t
  expected : dwcas_uint128_t
  desired : dwcas_uint128_t
  rest : List Nat
  deriving DecidableEq, Repr

/-- One call to `dwcas_compare_exchange_128` as a transformer of the whole
machine state: only the two writable regions (`loc` via `dst`, `expected`
via `old`) can change. -/
def dwcas_call (s : MachineState) (success failure : Nat) :
    Bool × MachineState :=
  let r := dwcas_compare_exchange_128 s.loc s.expected s.desired success failure
  (r.ret, { s with loc := r.dst, expected := r.old })

/-- A sequence of calls on one MemoryLocation, each call given by its own
expected buffer, desired buffer, and ordering codes; returns the final
contents of the location. -/
def run_calls (loc : dwcas_uint128_t)
    (calls : List (dwcas_uint128_t × dwcas_uint128_t × Nat × Nat)) :
    dwcas_uint128_t :=
  match calls with
  | [] => loc
  | c :: rest =>
      run_calls (dwcas_compare_exchange_128 loc c.1 c.2.1 c.2.2.1 c.2.2.2).dst
        rest

/-- N threads racing a compare-and-exchange on one location, taken in an
arbitrary linearization order: every thread supplies the same expected value
`v` and its own desired value; each list entry of the output is one thread's
(return value, final expected-buffer contents), and the second component is
the final contents of the location.  All threads use ordering codes
`(s, f)`; by `dwcas_orderings_no_influence` below the codes do not affect
these outcomes. -/
def cas_round (v : dwcas_uint128_t) (loc : dwcas_uint128_t)
    (ds : List dwcas_uint128_t) (s f : Nat) :
    List (Bool × dwcas_uint128_t) × dwcas_uint128_t :=
  match ds with
  | [] => ([], loc)
  | d :: rest =>
      let r := dwcas_compare_exchange_128 loc v d s f
      let (out, final) := cas_round v r.dst rest s f
      ((r.ret, r.old) :: out, final)

-- Sanity example from the spec's scenario (section 8).
example :
    dwcas_compare_exchange_128 ⟨0, 0⟩ ⟨0, 0⟩ ⟨42, 7⟩ 3 0 =
      { ret := true, dst := ⟨42, 7⟩, old := ⟨0, 0⟩,
        order_applied := memory_order_acq_rel } := by decide

example :
    dwcas_compare_exchange_128 ⟨42, 7⟩ ⟨0, 0⟩ ⟨99, 1⟩ 3 0 =
      { ret := false, dst := ⟨42, 7⟩, old := ⟨42, 7⟩,
        order_applied := memory_order_relaxed } := by decide

/-- C1: if the MemoryLocation holds `v` and the call supplies expected = `v`
and desired = `d`, the call returns true, the location afterwards holds `d`,
and the expected buffer is left unmodified, for any ordering codes. -/
theorem dwcas_success (v d : dwcas_uint128_t) (s f : Nat) :
    (dwcas_compare_exchange_128 v v d s f).ret = true ∧
    (dwcas_compare_exchange_128 v v d s f).dst = d ∧
    (dwcas_compare_exchange_128 v v d s f).old = v := by
  simp [dwcas_compare_exchange_128, atomic_compare_exchange_strong]

/-- C2: if the MemoryLocation holds `v` and the call supplies expected =
`w ≠ v`, the call returns false, the location is unchanged, and the expected
buffer is overwritten with `v`, for any desired value and ordering codes. -/
theorem dwcas_failure (v w d : dwcas_uint128_t) (s f : Nat) (h : v ≠ w) :
    (dwcas_compare_exchange_128 v w d s f).ret = false ∧
    (dwcas_compare_exchange_128 v w d s f).dst = v ∧
    (dwcas_compare_exchange_128 v w d s f).old = v := by
  simp [dwcas_compare_exchange_128, atomic_compare_exchange_strong, h]

/-- Witness for C2 at v = (1,2), w = (3,4), d = (5,6). -/
theorem dwcas_failure_witness :
    (⟨1, 2⟩ : dwcas_uint128_t) ≠ ⟨3, 4⟩ ∧
    ((dwcas_compare_exchange_128 ⟨1, 2⟩ ⟨3, 4⟩ ⟨5, 6⟩ 0 0).ret = false ∧
     (dwcas_compare_exchange_128 ⟨1, 2⟩ ⟨3, 4⟩ ⟨5, 6⟩ 0 0).dst = ⟨1, 2⟩ ∧
     (dwcas_compare_exchange_128 ⟨1, 2⟩ ⟨3, 4⟩ ⟨5, 6⟩ 0 0).old = ⟨1, 2⟩) :=
  ⟨by decide, dwcas_failure ⟨1, 2⟩ ⟨3, 4⟩ ⟨5, 6⟩ 0 0 (by decide)⟩

set_option maxRecDepth 4096 in
/-- C3: the ordering translator is total on all 256 unsigned 8-bit inputs,
mapping 0/1/2/3 to relaxed/acquire/release/acquire-release and every other
input to sequentially-consistent; being a Lean function it is side-effect
free and never signals an error. -/
theorem mem_order_from_uint8_t_total : ∀ n : Fin 256,
    mem_order_from_uint8_t n.val =
      (if n.val = 0 then memory_order_relaxed
       else if n.val = 1 then memory_order_acquire
       else if n.val = 2 then memory_order_release
       else if n.val = 3 then memory_order_acq_rel
       else memory_order_seq_cst) := by decide

/-- C4: the CAS operation forwards to the atomic compare-and-exchange with
the translated orderings, and the ordering actually applied to the atomic
access is the translated success code on the success path and the translated
failure code on the failure path. -/
theorem dwcas_orderings_routed
    (dst old new : dwcas_uint128_t) (success failure : Nat) :
    dwcas_compare_exchange_128 dst old new success failure =
      atomic_compare_exchange_strong dst old new
        (mem_order_from_uint8_t success) (mem_order_from_uint8_t failure) ∧
    (dwcas_compare_exchange_128 dst old new success failure).order_applied =
      (if (dwcas_compare_exchange_128 dst old new success failure).ret
       then mem_order_from_uint8_t success
       else mem_order_from_uint8_t failure) := by
  refine ⟨rfl, ?_⟩
  by_cases h : dst = old <;>
    simp [dwcas_compare_exchange_128, atomic_compare_exchange_strong, h]

/-- C5: strong compare-and-exchange — the call returns false if and only if
the location's current bit pattern genuinely differs from the expected
value; it never reports failure when the two are equal. -/
theorem dwcas_strong_no_spurious_failure
    (dst old new : dwcas_uint128_t) (s f : Nat) :
    (dwcas_compare_exchange_128 dst old new s f).ret = false ↔ dst ≠ old := by
  by_cases h : dst = old <;>
    simp [dwcas_compare_exchange_128, atomic_compare_exchange_strong, h]

/-- C6: frame — a single call never mutates the desired buffer or any other
process state; the MemoryLocation is written only on success and the
expected buffer only on failure. -/
theorem dwcas_frame (st : MachineState) (success failure : Nat) :
    (dwcas_call st success failure).2.desired = st.desired ∧
    (dwcas_call st success failure).2.rest = st.rest ∧
    ((dwcas_call st success failure).2.loc = st.loc ∨
      (dwcas_call st success failure).1 = true) ∧
    ((dwcas_call st success failure).2.expected = st.expected ∨
      (dwcas_call st success failure).1 = false) := by
  by_cases h : st.loc = st.expected <;>
    simp [dwcas_call, dwcas_compare_exchange_128,
      atomic_compare_exchange_strong, h]

/-- C7: idempotence of failure — any sequence of calls in which every call
supplies an expected value different from the location's current contents
leaves the location's contents identical to what they were initially. -/
theorem dwcas_stale_calls_no_mutation (loc : dwcas_uint128_t)
    (calls : List (dwcas_uint128_t × dwcas_uint128_t × Nat × Nat))
    (h : ∀ c ∈ calls, c.1 ≠ loc) :
    run_calls loc calls = loc := by
  induction calls with
  | nil => rfl
  | cons c rest ih =>
      have hc : c.1 ≠ loc := h c (List.mem_cons_self c rest)
      have hne : loc ≠ c.1 := fun e => hc e.symm
      have hstep :
          (dwcas_compare_exchange_128 loc c.1 c.2.1 c.2.2.1 c.2.2.2).dst =
            loc := by
        simp [dwcas_compare_exchange_128, atomic_compare_exchange_strong, hne]
      calc run_calls loc (c :: rest)
          = run_calls
              (dwcas_compare_exchange_128 loc c.1 c.2.1 c.2.2.1 c.2.2.2).dst
              rest := rfl
        _ = run_calls loc rest := by rw [hstep]
        _ = loc := ih (fun d hd => h d (List.mem_cons_of_mem c hd))

/-- Witness for C7 with two stale calls against a location holding (7,8). -/
theorem dwcas_stale_calls_no_mutation_witness :
    (∀ c ∈ [((⟨0, 0⟩ : dwcas_uint128_t), (⟨1, 1⟩ : dwcas_uint128_t), 2, 2),
            ((⟨9, 9⟩ : dwcas_uint128_t), (⟨3, 3⟩ : dwcas_uint128_t), 4, 4)],
        c.1 ≠ (⟨7, 8⟩ : dwcas_uint128_t)) ∧
    run_calls ⟨7, 8⟩
      [(⟨0, 0⟩, ⟨1, 1⟩, 2, 2), (⟨9, 9⟩, ⟨3, 3⟩, 4, 4)] = ⟨7, 8⟩ :=
  ⟨by decide, dwcas_stale_calls_no_mutation ⟨7, 8⟩ _ (by decide)⟩

/-- After some thread has installed `d ≠ v`, every remaining thread in the
linearization order fails and gets its expected buffer overwritten with `d`;
the location stays at `d`. -/
theorem cas_round_losers (v d : dwcas_uint128_t) (ds : List dwcas_uint128_t)
    (s f : Nat) (h : d ≠ v) :
    cas_round v d ds s f = (ds.map (fun _ => (false, d)), d) := by
  induction ds with
  | nil => rfl
  | cons x rest ih =>
      simp [cas_round, dwcas_compare_exchange_128,
        atomic_compare_exchange_strong, h, ih]

/-- C8 counterexample: two threads race on a location holding (0,0), both
supplying expected = (0,0) (the initial contents) and pairwise-distinct
desired values (0,0) and (1,1).  The first thread installs (0,0) — the value
already there — so the second thread's comparison also succeeds: both calls
return true, refuting "exactly one thread's call returns true". -/
theorem dwcas_race_two_winners :
    List.Pairwise (fun a b => a ≠ b)
      [(⟨0, 0⟩ : dwcas_uint128_t), ⟨1, 1⟩] ∧
    ((cas_round ⟨0, 0⟩ ⟨0, 0⟩ [⟨0, 0⟩, ⟨1, 1⟩] 4 4).1.map Prod.fst =
      [true, true]) := by decide

/-- C8 amended: if additionally every desired value differs from the
location's initial contents `v`, then in every linearization order of the
N ≥ 1 racing threads exactly the first thread returns true (its expected
buffer untouched at `v`), the other N-1 return false with their expected
buffers overwritten with the winner's desired value, and the location ends
holding the winner's desired value. -/
theorem dwcas_race_one_winner (v d : dwcas_uint128_t)
    (ds : List dwcas_uint128_t) (s f : Nat)
    (_hdist : (d :: ds).Pairwise (fun a b => a ≠ b))
    (hv : ∀ x ∈ d :: ds, x ≠ v) :
    (cas_round v v (d :: ds) s f).1 =
      (true, v) :: ds.map (fun _ => (false, d)) ∧
    (cas_round v v (d :: ds) s f).2 = d := by
  have hd : d ≠ v := hv d (List.mem_cons_self d ds)
  simp [cas_round, dwcas_compare_exchange_128, atomic_compare_exchange_strong,
    cas_round_losers v d ds s f hd]

/-- Witness for the amended C8: three threads, initial contents (0,0),
desired values (1,1), (2,2), (3,3). -/
theorem dwcas_race_one_winner_witness :
    (List.Pairwise (fun a b => a ≠ b)
      [(⟨1, 1⟩ : dwcas_uint128_t), ⟨2, 2⟩, ⟨3, 3⟩] ∧
     (∀ x ∈ [(⟨1, 1⟩ : dwcas_uint128_t), ⟨2, 2⟩, ⟨3, 3⟩],
        x ≠ (⟨0, 0⟩ : dwcas_uint128_t))) ∧
    ((cas_round ⟨0, 0⟩ ⟨0, 0⟩ [⟨1, 1⟩, ⟨2, 2⟩, ⟨3, 3⟩] 4 0).1 =
      [(true, ⟨0, 0⟩), (false, ⟨1, 1⟩), (false, ⟨1, 1⟩)] ∧
     (cas_round ⟨0, 0⟩ ⟨0, 0⟩ [⟨1, 1⟩, ⟨2, 2⟩, ⟨3, 3⟩] 4 0).2 = ⟨1, 1⟩) :=
  ⟨⟨by decide, by decide⟩,
    by
      have h := dwcas_race_one_winner ⟨0, 0⟩ ⟨1, 1⟩ [⟨2, 2⟩, ⟨3, 3⟩] 4 0
        (by decide) (by decide)
      simpa using h⟩

/-- C9: the two 8-bit ordering codes have no influence on the functional
outcome — for any contents of the location and the two buffers, any two
choices of (success, failure) codes yield the same return value, the same
final location contents, and the same final expected-buffer contents. -/
theorem dwcas_orderings_no_influence
    (dst old new : dwcas_uint128_t) (s1 f1 s2 f2 : Nat) :
    (dwcas_compare_exchange_128 dst old new s1 f1).ret =
      (dwcas_compare_exchange_128 dst old new s2 f2).ret ∧
    (dwcas_compare_exchange_128 dst old new s1 f1).dst =
      (dwcas_compare_exchange_128 dst old new s2 f2).dst ∧
    (dwcas_compare_exchange_128 dst old new s1 f1).old =
      (dwcas_compare_exchange_128 dst old new s2 f2).old := by
  by_cases h : dst = old <;>
    simp [dwcas_compare_exchange_128, atomic_compare_exchange_strong, h]

/-- C10: failure-then-retry round trip — if a call returns false (so the
expected buffer now holds the location's actual value), an immediately
following call with that updated expected buffer and any desired value `d`
returns true and leaves the location holding `d`. -/
theorem dwcas_retry_after_failure
    (dst old new d : dwcas_uint128_t) (s f s2 f2 : Nat)
    (h : (dwcas_compare_exchange_128 dst old new s f).ret = false) :
    (dwcas_compare_exchange_128
        (dwcas_compare_exchange_128 dst old new s f).dst
        (dwcas_compare_exchange_128 dst old new s f).old d s2 f2).ret =
      true ∧
    (dwcas_compare_exchange_128
        (dwcas_compare_exchange_128 dst old new s f).dst
        (dwcas_compare_exchange_128 dst old new s f).old d s2 f2).dst =
      d := by
  by_cases hc : dst = old
  · simp [dwcas_compare_exchange_128, atomic_compare_exchange_strong, hc] at h
  · simp [dwcas_compare_exchange_128, atomic_compare_exchange_strong, hc]

/-- Witness for C10 at location (1,0), stale expected (2,0), then retry with
desired (4,4). -/
theorem dwcas_retry_after_failure_witness :
    (dwcas_compare_exchange_128 ⟨1, 0⟩ ⟨2, 0⟩ ⟨3, 0⟩ 0 0).ret = false ∧
    ((dwcas_compare_exchange_128
        (dwcas_compare_exchange_128 ⟨1, 0⟩ ⟨2, 0⟩ ⟨3, 0⟩ 0 0).dst
        (dwcas_compare_exchange_128 ⟨1, 0⟩ ⟨2, 0⟩ ⟨3, 0⟩ 0 0).old
        ⟨4, 4⟩ 1 1).ret = true ∧
     (dwcas_compare_exchange_128
        (dwcas_compare_exchange_128 ⟨1, 0⟩ ⟨2, 0⟩ ⟨3, 0⟩ 0 0).dst
        (dwcas_compare_exchange_128 ⟨1, 0⟩ ⟨2, 0⟩ ⟨3, 0⟩ 0 0).old
        ⟨4, 4⟩ 1 1).dst = ⟨4, 4⟩) :=
  ⟨by decide,
    dwcas_retry_after_failure ⟨1, 0⟩ ⟨2, 0⟩ ⟨3, 0⟩ ⟨4, 4⟩ 0 0 1 1 (by decide)⟩
